import Mathlib

/-!
Verification of the battleship ship-location probability engine
(`calculateProbabilityMap` and its helpers) against its natural-language
specification.  The engine is shallowly embedded: probability maps are total
functions `Int → Int → ℚ`, the in-place array mutations of the source become
functional updates, and every loop becomes a fold over the same index lists
the source iterates.  All definitions are executable so that concrete game
positions can be evaluated by `decide`.
-/

attribute [local semireducible] Rat.add Rat.mul Rat.inv Rat.sub

set_option maxRecDepth 100000

namespace Battleship

/-- A board coordinate `[row, col]`, exactly as the source's `Coordinate` tuples.
Integers are used because intermediate arithmetic (neighbour offsets,
extension points) can go negative before the bounds checks. -/
abbrev Coordinate := Int × Int

/-- A probability map, indexed by row and column.  Cells outside the board are
never written by the source and stay `0` here. -/
abbrev ProbabilityMap := Int → Int → ℚ

/-- The five calculation modes of the engine. -/
inductive ProbabilityMode where
  | NORMAL
  | HUNTING
  | TARGETING
  | SUPER_AGGRESSIVE
  | OPTIMIZED
deriving DecidableEq

/-- A fully identified sunk ship: its length and the cells it occupied. -/
structure SunkShip where
  length : Nat
  positions : List Coordinate
deriving DecidableEq

/-- Orientation of an aligned run of hits. -/
inductive Direction where
  | horizontal
  | vertical
deriving DecidableEq, Inhabited

/-- A maximal contiguous run of at least two hits in one row or column. -/
structure AlignedGroup where
  direction : Direction
  coordinates : List Coordinate
deriving DecidableEq, Inhabited

/-- Direction vectors for adjacent cells (up, right, down, left). -/
def ADJACENT_DIRECTIONS : List (Int × Int) := [(-1, 0), (0, 1), (1, 0), (0, -1)]

def ADJACENCY_FACTOR : ℚ := 3
def ALIGNMENT_FACTOR : ℚ := 4
def COMPLETION_FACTOR : ℚ := 5
def SUPER_ADJACENCY_FACTOR : ℚ := 5
def SUPER_ALIGNMENT_FACTOR : ℚ := 8
def SUPER_COMPLETION_FACTOR : ℚ := 10
def OPTIMIZED_ADJACENCY_FACTOR : ℚ := 10
def OPTIMIZED_ALIGNMENT_FACTOR : ℚ := 15
def OPTIMIZED_COMPLETION_FACTOR : ℚ := 20
def OPTIMIZED_PATTERN_FACTOR : ℚ := 5
def ENTROPY_WEIGHT : ℚ := 3/10

/-- `isCoordinateInList` of the source: value-equality membership test. -/
def isCoordinateInList (coord : Coordinate) (l : List Coordinate) : Bool :=
  l.any (fun item => decide (item = coord))

/-- `isValidCell` of the source: the cell lies inside the board. -/
def isValidCell (row col : Int) (height width : Nat) : Bool :=
  decide (0 ≤ row) && decide (row < (height : Int)) &&
  decide (0 ≤ col) && decide (col < (width : Int))

/-- The `row`-many horizontal cells of a placement starting at `(r, c)`. -/
def segmentH (r c : Int) (len : Nat) : List Coordinate :=
  (List.range len).map (fun (i : Nat) => (r, c + (i : Int)))

/-- The `row`-many vertical cells of a placement starting at `(r, c)`. -/
def segmentV (r c : Int) (len : Nat) : List Coordinate :=
  (List.range len).map (fun (i : Nat) => (r + (i : Int), c))

/-- A placement avoids every recorded miss. -/
def noMiss (placement : List Coordinate) (misses : List Coordinate) : Bool :=
  placement.all (fun coord => !(isCoordinateInList coord misses))

/-- The chain check of `isConsistentWithHits`: every successive index is the
predecessor plus one. -/
def isConsecutive : List Int → Bool
  | [] => true
  | [_] => true
  | a :: b :: rest => decide (b = a + 1) && isConsecutive (b :: rest)

/-- Insert into a list sorted by `key`, keeping earlier elements first on
ties (a stable insertion, matching the stable JS array sort). -/
def insertByKey {α : Type} (key : α → Int) (x : α) : List α → List α
  | [] => [x]
  | y :: ys => if key x < key y then x :: y :: ys else y :: insertByKey key x ys

/-- Stable sort by an integer key. -/
def sortByKey {α : Type} (key : α → Int) (l : List α) : List α :=
  l.foldr (insertByKey key) []

/-- Index of the first occurrence of `hit` in `placement`, `-1` if absent
(mirrors the source's linear scan returning `-1`). -/
def indexInPlacement (placement : List Coordinate) (hit : Coordinate) : Int :=
  match placement.findIdx? (fun q => decide (q = hit)) with
  | some i => (i : Int)
  | none => -1

/-- `isConsistentWithHits` of the source: the hits a placement overlaps must
occupy a contiguous run of the placement's indices. -/
def isConsistentWithHits (placement : List Coordinate) (hits : List Coordinate) : Bool :=
  let overlappingHits := hits.filter (fun hit => isCoordinateInList hit placement)
  if overlappingHits.isEmpty then true
  else
    isConsecutive (sortByKey id (overlappingHits.map (indexInPlacement placement)))

/-- `generateValidPlacements` of the source: all horizontal placements
row-major, then all vertical placements row-major, filtered by the miss check
and the hit-consistency check.  The `sunkShips` argument is accepted but, as
in the source, not used for exclusion. -/
def generateValidPlacements (boardHeight boardWidth : Nat) (shipLength : Nat)
    (hits misses : List Coordinate) (sunkShips : List SunkShip) : List (List Coordinate) :=
  let _ := sunkShips
  let horiz := (List.range boardHeight).flatMap (fun (r : Nat) =>
    (List.range (boardWidth + 1 - shipLength)).map (fun (c : Nat) =>
      segmentH (r : Int) (c : Int) shipLength))
  let vert := (List.range (boardHeight + 1 - shipLength)).flatMap (fun (r : Nat) =>
    (List.range boardWidth).map (fun (c : Nat) =>
      segmentV (r : Int) (c : Int) shipLength))
  (horiz ++ vert).filter (fun p => noMiss p misses && isConsistentWithHits p hits)

/-- The per-cell counter of valid placements covering a cell, summed over all
remaining ship lengths (`cellPlacementCount` accumulation of the source). -/
def cellPlacementCount (boardHeight boardWidth : Nat) (hits misses : List Coordinate)
    (remainingShips : List Nat) (sunkShips : List SunkShip) (r c : Int) : Nat :=
  (remainingShips.map (fun len =>
    ((generateValidPlacements boardHeight boardWidth len hits misses sunkShips).map
      (fun p => p.count (r, c))).sum)).sum

/-- The total number of valid placements across all remaining ship lengths. -/
def totalPlacements (boardHeight boardWidth : Nat) (hits misses : List Coordinate)
    (remainingShips : List Nat) (sunkShips : List SunkShip) : Nat :=
  (remainingShips.map (fun len =>
    (generateValidPlacements boardHeight boardWidth len hits misses sunkShips).length)).sum

/-- The base probability map: count divided by total, with hit and miss cells
forced to `0`, before any heuristic pass. -/
def baseProbabilityMap (boardHeight boardWidth : Nat) (hits misses : List Coordinate)
    (remainingShips : List Nat) (sunkShips : List SunkShip) : ProbabilityMap :=
  fun r c =>
    if isValidCell r c boardHeight boardWidth then
      if isCoordinateInList (r, c) hits || isCoordinateInList (r, c) misses then 0
      else
        (cellPlacementCount boardHeight boardWidth hits misses remainingShips sunkShips r c : ℚ) /
          (totalPlacements boardHeight boardWidth hits misses remainingShips sunkShips : ℚ)
    else 0

/-- Insertion-ordered list of distinct keys, matching JS `Map` iteration
order (first occurrence order). -/
def insertKey (k : Int) (ks : List Int) : List Int :=
  if k ∈ ks then ks else ks ++ [k]

/-- The keys (by `f`) of the hits, in first-occurrence order. -/
def keysInOrder (f : Coordinate → Int) (hits : List Coordinate) : List Int :=
  hits.foldl (fun ks hit => insertKey (f hit) ks) []

/-- Split a sorted list into maximal runs: the run continues while `step prev y`
holds for the previous element (mirrors the source's index scan). -/
def runsSplit (step : Coordinate → Coordinate → Bool) :
    Coordinate → List Coordinate → List Coordinate → List (List Coordinate)
  | _, acc, [] => [acc.reverse]
  | prev, acc, y :: ys =>
    if step prev y then runsSplit step y (y :: acc) ys
    else acc.reverse :: runsSplit step y [y] ys

/-- All maximal runs of a list under `step`. -/
def consecutiveRuns (step : Coordinate → Coordinate → Bool) :
    List Coordinate → List (List Coordinate)
  | [] => []
  | x :: xs => runsSplit step x [x] xs

/-- `findAlignedHits` of the source: horizontal runs (rows in first-appearance
order, hits sorted by column) followed by vertical runs, keeping only runs of
at least two hits. -/
def findAlignedHits (hits : List Coordinate) : List AlignedGroup :=
  let rowGroups := (keysInOrder Prod.fst hits).flatMap (fun r =>
    let rowHits := hits.filter (fun hh => decide (hh.1 = r))
    if rowHits.length < 2 then []
    else
      ((consecutiveRuns (fun prev y => decide (y.2 ≤ prev.2 + 1))
          (sortByKey Prod.snd rowHits)).filter (fun run => decide (2 ≤ run.length))).map
        (fun run => ⟨Direction.horizontal, run⟩))
  let colGroups := (keysInOrder Prod.snd hits).flatMap (fun c =>
    let colHits := hits.filter (fun hh => decide (hh.2 = c))
    if colHits.length < 2 then []
    else
      ((consecutiveRuns (fun prev y => decide (y.1 ≤ prev.1 + 1))
          (sortByKey Prod.fst colHits)).filter (fun run => decide (2 ≤ run.length))).map
        (fun run => ⟨Direction.vertical, run⟩))
  rowGroups ++ colGroups

/-- `getExtensionPoints` of the source: the in-bounds cell immediately before
the run's minimum and immediately after its maximum, skipping misses. -/
def getExtensionPoints (coordinates : List Coordinate) (direction : Direction)
    (boardHeight boardWidth : Nat) (misses : List Coordinate) : List Coordinate :=
  match direction with
  | Direction.horizontal =>
    let sorted := sortByKey Prod.snd coordinates
    let row := (sorted.headD (0, 0)).1
    let minCol := (sorted.headD (0, 0)).2
    let maxCol := (sorted.getLastD (0, 0)).2
    (if decide (0 < minCol) && !(isCoordinateInList (row, minCol - 1) misses)
     then [(row, minCol - 1)] else []) ++
    (if decide (maxCol < (boardWidth : Int) - 1) &&
        !(isCoordinateInList (row, maxCol + 1) misses)
     then [(row, maxCol + 1)] else [])
  | Direction.vertical =>
    let sorted := sortByKey Prod.fst coordinates
    let col := (sorted.headD (0, 0)).2
    let minRow := (sorted.headD (0, 0)).1
    let maxRow := (sorted.getLastD (0, 0)).1
    (if decide (0 < minRow) && !(isCoordinateInList (minRow - 1, col) misses)
     then [(minRow - 1, col)] else []) ++
    (if decide (maxRow < (boardHeight : Int) - 1) &&
        !(isCoordinateInList (maxRow + 1, col) misses)
     then [(maxRow + 1, col)] else [])

/-- `getAdjacentCells` of the source: the in-bounds 4-neighbours of the hits
that are not themselves hits, misses, or already collected. -/
def getAdjacentCells (boardHeight boardWidth : Nat)
    (hits misses : List Coordinate) : List Coordinate :=
  hits.foldl (fun acc hit =>
    ADJACENT_DIRECTIONS.foldl (fun acc2 d =>
      let adj : Coordinate := (hit.1 + d.1, hit.2 + d.2)
      if isValidCell adj.1 adj.2 boardHeight boardWidth &&
          !(isCoordinateInList adj hits) && !(isCoordinateInList adj misses) &&
          !(isCoordinateInList adj acc2)
      then acc2 ++ [adj] else acc2) acc) []

/-- Longest run of `true` in a boolean list, carrying the best seen so far. -/
def maxRunAux : List Bool → Nat → Nat → Nat
  | [], _, best => best
  | b :: rest, cur, best =>
    if b then maxRunAux rest (cur + 1) (max best (cur + 1))
    else maxRunAux rest 0 best

/-- Longest run of strictly positive cells along any row or column
(the scan of `findSmallestRemainingShip`). -/
def maxConsecutivePositive (m : ProbabilityMap) (boardHeight boardWidth : Nat) : Nat :=
  let rowsMax := (List.range boardHeight).foldl (fun best (r : Nat) =>
    maxRunAux ((List.range boardWidth).map
      (fun (c : Nat) => decide (0 < m (r : Int) (c : Int)))) 0 best) 0
  (List.range boardWidth).foldl (fun best (c : Nat) =>
    maxRunAux ((List.range boardHeight).map
      (fun (r : Nat) => decide (0 < m (r : Int) (c : Int)))) 0 best) rowsMax

/-- `findSmallestRemainingShip` of the source: the longest positive run, capped
at `5`, with floor `2`. -/
def findSmallestRemainingShip (m : ProbabilityMap) (boardHeight boardWidth : Nat) : Nat :=
  let mx := maxConsecutivePositive m boardHeight boardWidth
  if 2 < mx then min mx 5 else 2

/-- `findPotentialCompletions` of the source: extension points of aligned
groups whose length is exactly `shipSize - 1`. -/
def findPotentialCompletions (boardHeight boardWidth : Nat)
    (hits misses : List Coordinate) (shipSize : Nat) : List Coordinate :=
  (findAlignedHits hits).foldl (fun acc g =>
    if shipSize ≤ g.coordinates.length then acc
    else if g.coordinates.length = shipSize - 1 then
      acc ++ getExtensionPoints g.coordinates g.direction boardHeight boardWidth misses
    else acc) []

/-- Functional update of a map at one cell. -/
def applyAt (f : ℚ → ℚ) (p : Coordinate) (m : ProbabilityMap) : ProbabilityMap :=
  fun r c => if (r, c) = p then f (m r c) else m r c

/-- The guarded multiplicative boost of the source
(`if (map[r][c] > 0) map[r][c] *= k`). -/
def boostAt (k : ℚ) (p : Coordinate) (m : ProbabilityMap) : ProbabilityMap :=
  applyAt (fun v => if 0 < v then v * k else v) p m

/-- The unguarded multiplication of the source (`map[r][c] *= k`). -/
def mulAt (k : ℚ) (p : Coordinate) (m : ProbabilityMap) : ProbabilityMap :=
  applyAt (fun v => v * k) p m

/-- Guarded boost of every listed cell in order. -/
def boostCells (k : ℚ) (cells : List Coordinate) (m : ProbabilityMap) : ProbabilityMap :=
  cells.foldl (fun acc p => boostAt k p acc) m

/-- `applyCheckerboardPattern` of the source: halve positive cells of odd
parity. -/
def applyCheckerboardPattern (boardHeight boardWidth : Nat)
    (m : ProbabilityMap) : ProbabilityMap :=
  fun r c =>
    if isValidCell r c boardHeight boardWidth && decide ((r + c) % 2 = 1) &&
        decide (0 < m r c)
    then m r c * (1/2) else m r c

/-- The NORMAL-mode adjacency pass of `calculateProbabilityMap`: neighbours of
hits are tripled and capped at `1`. -/
def applyNormalAdjacency (boardHeight boardWidth : Nat)
    (hits misses : List Coordinate) (m : ProbabilityMap) : ProbabilityMap :=
  (getAdjacentCells boardHeight boardWidth hits misses).foldl
    (fun acc p => applyAt (fun v => min 1 (v * ADJACENCY_FACTOR)) p acc) m

/-- `applyTargetingStrategy` of the source. -/
def applyTargetingStrategy (boardHeight boardWidth : Nat)
    (hits misses : List Coordinate) (m : ProbabilityMap) : ProbabilityMap :=
  if hits.isEmpty then m
  else
    let alignedHits := findAlignedHits hits
    if 2 ≤ alignedHits.length then
      let g := alignedHits.headI
      boostCells ALIGNMENT_FACTOR
        (getExtensionPoints g.coordinates g.direction boardHeight boardWidth misses) m
    else
      let m1 := boostCells ADJACENCY_FACTOR
        (getAdjacentCells boardHeight boardWidth hits misses) m
      boostCells COMPLETION_FACTOR
        (findPotentialCompletions boardHeight boardWidth hits misses
          (findSmallestRemainingShip m1 boardHeight boardWidth)) m1

/-- One ordered pair step of the corner-pattern pass: boost the two cells that
close the rectangle on two hits sharing neither row nor column. -/
def patternCornerStep (boardHeight boardWidth : Nat) (hits misses : List Coordinate)
    (k : ℚ) (m : ProbabilityMap) (h1 h2 : Coordinate) : ProbabilityMap :=
  if h1 = h2 then m
  else if h1.1 = h2.1 ∨ h1.2 = h2.2 then m
  else
    let c1 : Coordinate := (h1.1, h2.2)
    let c2 : Coordinate := (h2.1, h1.2)
    let m1 :=
      if isValidCell c1.1 c1.2 boardHeight boardWidth &&
          !(isCoordinateInList c1 hits) && !(isCoordinateInList c1 misses)
      then mulAt k c1 m else m
    if isValidCell c2.1 c2.2 boardHeight boardWidth &&
        !(isCoordinateInList c2 hits) && !(isCoordinateInList c2 misses)
    then mulAt k c2 m1 else m1

/-- `applyPatternRecognition` of the source: the corner pass over every
ordered pair of hits, with factor `1.5`. -/
def applyPatternRecognition (boardHeight boardWidth : Nat)
    (hits misses : List Coordinate) (m : ProbabilityMap) : ProbabilityMap :=
  hits.foldl (fun acc h1 =>
    hits.foldl (fun acc2 h2 =>
      patternCornerStep boardHeight boardWidth hits misses (3/2) acc2 h1 h2) acc) m

/-- `applySuperAggressiveStrategy` of the source. -/
def applySuperAggressiveStrategy (boardHeight boardWidth : Nat)
    (hits misses : List Coordinate) (m : ProbabilityMap) : ProbabilityMap :=
  if hits.isEmpty then applyCheckerboardPattern boardHeight boardWidth m
  else
    let alignedHits := findAlignedHits hits
    let m1 :=
      if 2 ≤ alignedHits.length then
        alignedHits.foldl (fun acc g =>
          boostCells SUPER_ALIGNMENT_FACTOR
            (getExtensionPoints g.coordinates g.direction boardHeight boardWidth misses)
            acc) m
      else
        boostCells SUPER_ADJACENCY_FACTOR
          (getAdjacentCells boardHeight boardWidth hits misses) m
    let m2 := boostCells SUPER_COMPLETION_FACTOR
      (findPotentialCompletions boardHeight boardWidth hits misses
        (findSmallestRemainingShip m1 boardHeight boardWidth)) m1
    applyPatternRecognition boardHeight boardWidth hits misses m2

/-- `getActiveHits` of the source: hits not appearing among the positions of
any sunk ship. -/
def getActiveHits (hits : List Coordinate) (sunkShips : List SunkShip) : List Coordinate :=
  let sunkPositions := (sunkShips.map SunkShip.positions).flatten
  hits.filter (fun hit => !(sunkPositions.any (fun p => decide (p = hit))))

/-- Smallest element of a nonempty list of ship lengths (`Math.min` spread). -/
def listMin : List Nat → Nat
  | [] => 0
  | x :: xs => xs.foldl min x

/-- The spacing-grid loop of `applyOptimalInitialPattern`: cells on the search
grid are doubled. -/
def spacingGridStage (boardHeight boardWidth : Nat) (spacing : Int)
    (m : ProbabilityMap) : ProbabilityMap :=
  fun r c =>
    if isValidCell r c boardHeight boardWidth &&
        ((decide (r % spacing = 0) && decide (c % spacing = 0)) ||
         (decide (r % spacing = 1) && decide (c % spacing = 1)))
    then m r c * 2 else m r c

/-- The twelve corner-area cells damped on a standard 10×10 board. -/
def cornerCells (boardHeight boardWidth : Nat) : List Coordinate :=
  let w : Int := (boardWidth : Int)
  let h : Int := (boardHeight : Int)
  [(0, 0), (0, 1), (1, 0),
   (0, w - 1), (0, w - 2), (1, w - 1),
   (h - 1, 0), (h - 2, 0), (h - 1, 1),
   (h - 1, w - 1), (h - 1, w - 2), (h - 2, w - 1)]

/-- The centre-area loop of `applyOptimalInitialPattern`: positive cells of the
3×3 centre region are boosted by `1.25`. -/
def centerBoostStage (boardHeight boardWidth : Nat) (m : ProbabilityMap) : ProbabilityMap :=
  let centerRow : Int := (boardHeight : Int) / 2
  let centerCol : Int := (boardWidth : Int) / 2
  fun r c =>
    if decide (centerRow - 1 ≤ r) && decide (r ≤ centerRow + 1) &&
        decide (centerCol - 1 ≤ c) && decide (c ≤ centerCol + 1) &&
        isValidCell r c boardHeight boardWidth && decide (0 < m r c)
    then m r c * (5/4) else m r c

/-- `applyOptimalInitialPattern` of the source: spacing-grid boost, then on a
10×10 board corner damping and a slight centre boost. -/
def applyOptimalInitialPattern (boardHeight boardWidth : Nat)
    (remainingShips : List Nat) (m : ProbabilityMap) : ProbabilityMap :=
  let smallestShip := listMin remainingShips
  let optimalSpacing : Int := max 2 ((smallestShip : Int) - 1)
  let m1 := spacingGridStage boardHeight boardWidth optimalSpacing m
  if boardHeight = 10 ∧ boardWidth = 10 then
    centerBoostStage boardHeight boardWidth
      (boostCells (1/2) (cornerCells boardHeight boardWidth) m1)
  else m1

/-- `applyEnhancedPatternRecognition` of the source: double positive
4-neighbours of every hit, then the corner pass with factor `5`. -/
def applyEnhancedPatternRecognition (boardHeight boardWidth : Nat)
    (hits misses : List Coordinate) (m : ProbabilityMap) : ProbabilityMap :=
  let m1 := hits.foldl (fun acc hit =>
    ADJACENT_DIRECTIONS.foldl (fun acc2 d =>
      let adj : Coordinate := (hit.1 + d.1, hit.2 + d.2)
      if isValidCell adj.1 adj.2 boardHeight boardWidth &&
          !(isCoordinateInList adj hits) && !(isCoordinateInList adj misses)
      then boostAt 2 adj acc2 else acc2) acc) m
  hits.foldl (fun acc h1 =>
    hits.foldl (fun acc2 h2 =>
      patternCornerStep boardHeight boardWidth hits misses
        OPTIMIZED_PATTERN_FACTOR acc2 h1 h2) acc) m1

/-- Closed integer interval `[a, b]` as a list, empty when `b < a`
(the `for` loops of the entropy scan). -/
def intRange (a b : Int) : List Int :=
  (List.range (b + 1 - a).toNat).map (fun (k : Nat) => a + (k : Int))

/-- The information-gain count of `applyInformationEntropy`: placements of each
remaining length through the cell, ignoring the cell itself, that avoid all
misses. -/
def informationGain (boardHeight boardWidth : Nat) (misses : List Coordinate)
    (remainingShips : List Nat) (r c : Int) : Nat :=
  (remainingShips.map (fun (len : Nat) =>
    ((intRange (max 0 (c - (len : Int) + 1)) (min c ((boardWidth : Int) - (len : Int)))).filter
      (fun i => (List.range len).all (fun (k : Nat) =>
        decide (i + (k : Int) = c) ||
        !(isCoordinateInList (r, i + (k : Int)) misses)))).length +
    ((intRange (max 0 (r - (len : Int) + 1)) (min r ((boardHeight : Int) - (len : Int)))).filter
      (fun i => (List.range len).all (fun (k : Nat) =>
        decide (i + (k : Int) = r) ||
        !(isCoordinateInList (i + (k : Int), c) misses)))).length)).sum

/-- The entropy counter of a cell: zero on zero-probability cells, otherwise
the information gain. -/
def entropyCell (boardHeight boardWidth : Nat) (misses : List Coordinate)
    (remainingShips : List Nat) (m : ProbabilityMap) (r c : Int) : Nat :=
  if m r c = 0 then 0 else informationGain boardHeight boardWidth misses remainingShips r c

/-- The maximum entropy counter over the whole board. -/
def maxEntropy (boardHeight boardWidth : Nat) (misses : List Coordinate)
    (remainingShips : List Nat) (m : ProbabilityMap) : Nat :=
  (List.range boardHeight).foldl (fun best (r : Nat) =>
    (List.range boardWidth).foldl (fun b2 (c : Nat) =>
      max b2 (entropyCell boardHeight boardWidth misses remainingShips m (r : Int) (c : Int)))
      best) 0

/-- A cell's entropy counter normalised by the board maximum. -/
def normalizedEntropy (boardHeight boardWidth : Nat) (misses : List Coordinate)
    (remainingShips : List Nat) (m : ProbabilityMap) (r c : Int) : ℚ :=
  let mx := maxEntropy boardHeight boardWidth misses remainingShips m
  if 0 < mx then
    (entropyCell boardHeight boardWidth misses remainingShips m r c : ℚ) / (mx : ℚ)
  else (entropyCell boardHeight boardWidth misses remainingShips m r c : ℚ)

/-- The blend loop of `applyInformationEntropy`: positive cells become a
weighted combination of probability and normalised entropy. -/
def entropyBlendStage (boardHeight boardWidth : Nat) (misses : List Coordinate)
    (remainingShips : List Nat) (m : ProbabilityMap) : ProbabilityMap :=
  fun r c =>
    if isValidCell r c boardHeight boardWidth && decide (0 < m r c) then
      (1 - ENTROPY_WEIGHT) * m r c +
        ENTROPY_WEIGHT * normalizedEntropy boardHeight boardWidth misses remainingShips m r c
    else m r c

/-- `applyInformationEntropy` of the source: skipped entirely when the full
hit list already has two or more aligned groups. -/
def applyInformationEntropy (boardHeight boardWidth : Nat)
    (hits misses : List Coordinate) (remainingShips : List Nat)
    (m : ProbabilityMap) : ProbabilityMap :=
  if 2 ≤ (findAlignedHits hits).length then m
  else entropyBlendStage boardHeight boardWidth misses remainingShips m

/-- The pipeline of `applyOptimizedStrategy` up to (but excluding) the entropy
pass: alignment boost, isolated-hit adjacency, completions, enhanced pattern. -/
def optimizedPreEntropy (boardHeight boardWidth : Nat) (hits misses : List Coordinate)
    (sunkShips : List SunkShip) (m : ProbabilityMap) : ProbabilityMap :=
  let activeHits := getActiveHits hits sunkShips
  let alignedHits := findAlignedHits activeHits
  let m1 :=
    if 1 ≤ alignedHits.length then
      alignedHits.foldl (fun acc g =>
        boostCells OPTIMIZED_ALIGNMENT_FACTOR
          (getExtensionPoints g.coordinates g.direction boardHeight boardWidth misses)
          acc) m
    else m
  let isolatedHits := activeHits.filter (fun hit =>
    !(alignedHits.any (fun g => g.coordinates.any (fun coord => decide (coord = hit)))))
  let m2 :=
    if isolatedHits.isEmpty then m1
    else boostCells OPTIMIZED_ADJACENCY_FACTOR
      (getAdjacentCells boardHeight boardWidth isolatedHits misses) m1
  let m3 := boostCells OPTIMIZED_COMPLETION_FACTOR
    (findPotentialCompletions boardHeight boardWidth activeHits misses
      (findSmallestRemainingShip m2 boardHeight boardWidth)) m2
  applyEnhancedPatternRecognition boardHeight boardWidth activeHits misses m3

/-- `applyOptimizedStrategy` of the source. -/
def applyOptimizedStrategy (boardHeight boardWidth : Nat) (hits misses : List Coordinate)
    (remainingShips : List Nat) (sunkShips : List SunkShip)
    (m : ProbabilityMap) : ProbabilityMap :=
  if (getActiveHits hits sunkShips).isEmpty then
    applyOptimalInitialPattern boardHeight boardWidth remainingShips m
  else
    applyInformationEntropy boardHeight boardWidth hits misses remainingShips
      (optimizedPreEntropy boardHeight boardWidth hits misses sunkShips m)

/-- Sum of the strictly positive cells of the board. -/
def sumPositive (boardHeight boardWidth : Nat) (m : ProbabilityMap) : ℚ :=
  ∑ r ∈ Finset.range boardHeight, ∑ c ∈ Finset.range boardWidth,
    (if 0 < m (r : Int) (c : Int) then m (r : Int) (c : Int) else 0)

/-- Number of strictly positive cells of the board. -/
def countPositive (boardHeight boardWidth : Nat) (m : ProbabilityMap) : Nat :=
  ∑ r ∈ Finset.range boardHeight, ∑ c ∈ Finset.range boardWidth,
    (if 0 < m (r : Int) (c : Int) then 1 else 0)

/-- `normalizeMap` of the source: divide every positive cell by the sum of the
positive cells, leaving the map untouched when there is nothing to normalise. -/
def normalizeMap (boardHeight boardWidth : Nat) (m : ProbabilityMap) : ProbabilityMap :=
  if countPositive boardHeight boardWidth m = 0 ∨ sumPositive boardHeight boardWidth m = 0
  then m
  else fun r c =>
    if isValidCell r c boardHeight boardWidth && decide (0 < m r c)
    then m r c / sumPositive boardHeight boardWidth m else m r c

/-- The auto-upgrade rule of `calculateProbabilityMap`: NORMAL with hits is
treated as TARGETING for the call. -/
def effectiveMode (mode : ProbabilityMode) (hits : List Coordinate) : ProbabilityMode :=
  if mode = ProbabilityMode.NORMAL ∧ hits ≠ [] then ProbabilityMode.TARGETING else mode

/-- The mode dispatch of `calculateProbabilityMap` applied to the base map. -/
def boostedMap (boardHeight boardWidth : Nat) (hits misses : List Coordinate)
    (remainingShips : List Nat) (mode : ProbabilityMode)
    (sunkShips : List SunkShip) : ProbabilityMap :=
  let base := baseProbabilityMap boardHeight boardWidth hits misses remainingShips sunkShips
  match effectiveMode mode hits with
  | ProbabilityMode.HUNTING => applyCheckerboardPattern boardHeight boardWidth base
  | ProbabilityMode.TARGETING => applyTargetingStrategy boardHeight boardWidth hits misses base
  | ProbabilityMode.SUPER_AGGRESSIVE =>
    applySuperAggressiveStrategy boardHeight boardWidth hits misses base
  | ProbabilityMode.OPTIMIZED =>
    applyOptimizedStrategy boardHeight boardWidth hits misses remainingShips sunkShips base
  | ProbabilityMode.NORMAL => applyNormalAdjacency boardHeight boardWidth hits misses base

/-- `calculateProbabilityMap` of the source: early zero map when no ships
remain or no placement survives, otherwise the normalised boosted map. -/
def calculateProbabilityMap (boardHeight boardWidth : Nat) (hits misses : List Coordinate)
    (remainingShips : List Nat) (mode : ProbabilityMode)
    (sunkShips : List SunkShip) : ProbabilityMap :=
  if remainingShips = [] then fun _ _ => 0
  else if totalPlacements boardHeight boardWidth hits misses remainingShips sunkShips = 0
  then fun _ _ => 0
  else normalizeMap boardHeight boardWidth
    (boostedMap boardHeight boardWidth hits misses remainingShips mode sunkShips)

/-- The returned height×width grid, row-major, as the source materialises it. -/
def probabilityGrid (boardHeight boardWidth : Nat) (hits misses : List Coordinate)
    (remainingShips : List Nat) (mode : ProbabilityMode)
    (sunkShips : List SunkShip) : List (List ℚ) :=
  (List.range boardHeight).map (fun (r : Nat) =>
    (List.range boardWidth).map (fun (c : Nat) =>
      calculateProbabilityMap boardHeight boardWidth hits misses remainingShips mode
        sunkShips (r : Int) (c : Int)))

/-- Every axis-aligned in-bounds placement of a ship of length `len`, all
horizontal placements row-major then all vertical placements row-major,
with no filtering.  This follows the specification's description of the
placement space ("number of in-bounds axis-aligned placements"), to be
compared with the source's filtered enumeration. -/
def specPlacements (boardHeight boardWidth : Nat) (len : Nat) : List (List Coordinate) :=
  ((List.range boardHeight).flatMap (fun (r : Nat) =>
    (List.range (boardWidth + 1 - len)).map (fun (c : Nat) =>
      segmentH (r : Int) (c : Int) len))) ++
  ((List.range (boardHeight + 1 - len)).flatMap (fun (r : Nat) =>
    (List.range boardWidth).map (fun (c : Nat) =>
      segmentV (r : Int) (c : Int) len)))

/-- The specification's "number of placements covering that cell". -/
def specCoverCount (boardHeight boardWidth : Nat) (len : Nat) (r c : Int) : Nat :=
  ((specPlacements boardHeight boardWidth len).filter
    (fun p => isCoordinateInList (r, c) p)).length

/-- The specification's "total number of such placements on the board". -/
def specTotalPlacements (boardHeight boardWidth : Nat) (len : Nat) : Nat :=
  (specPlacements boardHeight boardWidth len).length

/-- The optimized strategy as claim C9 describes it: identical to
`applyOptimizedStrategy` except that the entropy-blend skip decision is taken
on the aligned groups of the ACTIVE hits instead of all hits. -/
def claimedOptimizedStrategy (boardHeight boardWidth : Nat)
    (hits misses : List Coordinate) (remainingShips : List Nat)
    (sunkShips : List SunkShip) (m : ProbabilityMap) : ProbabilityMap :=
  if (getActiveHits hits sunkShips).isEmpty then
    applyOptimalInitialPattern boardHeight boardWidth remainingShips m
  else
    let pre := optimizedPreEntropy boardHeight boardWidth hits misses sunkShips m
    if 2 ≤ (findAlignedHits (getActiveHits hits sunkShips)).length then pre
    else entropyBlendStage boardHeight boardWidth misses remainingShips pre

/-- The OPTIMIZED-mode output for the representative aligned-pair position of
claim C8: a 5×5 board, hits at `(2,1)` and `(2,2)`, no misses, one remaining
ship of length 5. -/
def c8OptimizedMap : ProbabilityMap :=
  calculateProbabilityMap 5 5 [(2, 1), (2, 2)] [] [5] ProbabilityMode.OPTIMIZED []

lemma ite_map_apply (P : Prop) [Decidable P] (m1 m2 : ProbabilityMap) (r c : Int) :
    (if P then m1 else m2) r c = if P then m1 r c else m2 r c := by
  by_cases hP : P <;> simp [hP]

lemma foldl_preserve {α : Type} (P : ProbabilityMap → Prop)
    (g : ProbabilityMap → α → ProbabilityMap)
    (hg : ∀ m a, P m → P (g m a)) :
    ∀ (l : List α) (m : ProbabilityMap), P m → P (l.foldl g m) := by
  intro l
  induction l with
  | nil => intro m hm; exact hm
  | cons a t ih => intro m hm; exact ih _ (hg _ _ hm)

lemma applyAt_zero (f : ℚ → ℚ) (hf : f 0 = 0) (p : Coordinate) (m : ProbabilityMap)
    (r c : Int) (h0 : m r c = 0) : applyAt f p m r c = 0 := by
  unfold applyAt
  split
  · rw [h0, hf]
  · exact h0

lemma boostAt_zero (k : ℚ) (p : Coordinate) (m : ProbabilityMap) (r c : Int)
    (h0 : m r c = 0) : boostAt k p m r c = 0 :=
  applyAt_zero _ (by simp) p m r c h0

lemma mulAt_zero (k : ℚ) (p : Coordinate) (m : ProbabilityMap) (r c : Int)
    (h0 : m r c = 0) : mulAt k p m r c = 0 :=
  applyAt_zero _ (zero_mul k) p m r c h0

lemma boostCells_zero (k : ℚ) (cells : List Coordinate) (m : ProbabilityMap)
    (r c : Int) (h0 : m r c = 0) : boostCells k cells m r c = 0 :=
  foldl_preserve (fun mm => mm r c = 0) _
    (fun mm p hp => boostAt_zero k p mm r c hp) cells m h0

lemma applyCheckerboardPattern_zero (h w : Nat) (m : ProbabilityMap) (r c : Int)
    (h0 : m r c = 0) : applyCheckerboardPattern h w m r c = 0 := by
  unfold applyCheckerboardPattern
  split <;> simp [h0]

lemma applyNormalAdjacency_zero (h w : Nat) (hits misses : List Coordinate)
    (m : ProbabilityMap) (r c : Int) (h0 : m r c = 0) :
    applyNormalAdjacency h w hits misses m r c = 0 :=
  foldl_preserve (fun mm => mm r c = 0) _
    (fun mm p hp => applyAt_zero _ (by norm_num) p mm r c hp) _ m h0

lemma applyTargetingStrategy_zero (h w : Nat) (hits misses : List Coordinate)
    (m : ProbabilityMap) (r c : Int) (h0 : m r c = 0) :
    applyTargetingStrategy h w hits misses m r c = 0 := by
  unfold applyTargetingStrategy
  split
  · exact h0
  · rw [ite_map_apply]
    split
    · exact boostCells_zero _ _ _ _ _ h0
    · exact boostCells_zero _ _ _ _ _ (boostCells_zero _ _ _ _ _ h0)

lemma patternCornerStep_zero (h w : Nat) (hits misses : List Coordinate) (k : ℚ)
    (m : ProbabilityMap) (h1 h2 : Coordinate) (r c : Int) (h0 : m r c = 0) :
    patternCornerStep h w hits misses k m h1 h2 r c = 0 := by
  unfold patternCornerStep
  split
  · exact h0
  split
  · exact h0
  rw [ite_map_apply, ite_map_apply]
  split <;> split <;>
    first
      | exact mulAt_zero _ _ _ _ _ (mulAt_zero _ _ _ _ _ h0)
      | exact mulAt_zero _ _ _ _ _ h0
      | exact h0

lemma applyPatternRecognition_zero (h w : Nat) (hits misses : List Coordinate)
    (m : ProbabilityMap) (r c : Int) (h0 : m r c = 0) :
    applyPatternRecognition h w hits misses m r c = 0 := by
  unfold applyPatternRecognition
  refine foldl_preserve (fun mm => mm r c = 0) _ ?_ _ m h0
  intro mm h1 hmm
  exact foldl_preserve (fun mm2 => mm2 r c = 0) _
    (fun mm2 h2 hp => patternCornerStep_zero _ _ _ _ _ _ _ _ _ _ hp) _ mm hmm

lemma applySuperAggressiveStrategy_zero (h w : Nat) (hits misses : List Coordinate)
    (m : ProbabilityMap) (r c : Int) (h0 : m r c = 0) :
    applySuperAggressiveStrategy h w hits misses m r c = 0 := by
  unfold applySuperAggressiveStrategy
  split
  · exact applyCheckerboardPattern_zero _ _ _ _ _ h0
  · refine applyPatternRecognition_zero _ _ _ _ _ _ _ (boostCells_zero _ _ _ _ _ ?_)
    split
    · exact foldl_preserve (fun mm => mm r c = 0) _
        (fun mm g hp => boostCells_zero _ _ _ _ _ hp) _ m h0
    · exact boostCells_zero _ _ _ _ _ h0

lemma spacingGridStage_zero (h w : Nat) (spacing : Int) (m : ProbabilityMap)
    (r c : Int) (h0 : m r c = 0) : spacingGridStage h w spacing m r c = 0 := by
  unfold spacingGridStage
  split <;> simp [h0]

lemma centerBoostStage_zero (h w : Nat) (m : ProbabilityMap) (r c : Int)
    (h0 : m r c = 0) : centerBoostStage h w m r c = 0 := by
  unfold centerBoostStage
  split <;> simp [h0]

lemma applyOptimalInitialPattern_zero (h w : Nat) (ships : List Nat)
    (m : ProbabilityMap) (r c : Int) (h0 : m r c = 0) :
    applyOptimalInitialPattern h w ships m r c = 0 := by
  unfold applyOptimalInitialPattern
  rw [ite_map_apply]
  split
  · exact centerBoostStage_zero _ _ _ _ _
      (boostCells_zero _ _ _ _ _ (spacingGridStage_zero _ _ _ _ _ _ h0))
  · exact spacingGridStage_zero _ _ _ _ _ _ h0

lemma applyEnhancedPatternRecognition_zero (h w : Nat) (hits misses : List Coordinate)
    (m : ProbabilityMap) (r c : Int) (h0 : m r c = 0) :
    applyEnhancedPatternRecognition h w hits misses m r c = 0 := by
  unfold applyEnhancedPatternRecognition
  refine foldl_preserve (fun mm => mm r c = 0) _ ?_ _ _ ?_
  · intro mm h1 hmm
    exact foldl_preserve (fun mm2 => mm2 r c = 0) _
      (fun mm2 h2 hp => patternCornerStep_zero _ _ _ _ _ _ _ _ _ _ hp) _ mm hmm
  · refine foldl_preserve (fun mm => mm r c = 0) _ ?_ _ m h0
    intro mm hit hmm
    refine foldl_preserve (fun mm2 => mm2 r c = 0) _ ?_ _ mm hmm
    intro mm2 d hp
    rw [ite_map_apply]
    split
    · exact boostAt_zero _ _ _ _ _ hp
    · exact hp

lemma entropyBlendStage_zero (h w : Nat) (misses : List Coordinate) (ships : List Nat)
    (m : ProbabilityMap) (r c : Int) (h0 : m r c = 0) :
    entropyBlendStage h w misses ships m r c = 0 := by
  unfold entropyBlendStage
  rw [if_neg]
  · exact h0
  · simp [h0]

lemma applyInformationEntropy_zero (h w : Nat) (hits misses : List Coordinate)
    (ships : List Nat) (m : ProbabilityMap) (r c : Int) (h0 : m r c = 0) :
    applyInformationEntropy h w hits misses ships m r c = 0 := by
  unfold applyInformationEntropy
  split
  · exact h0
  · exact entropyBlendStage_zero _ _ _ _ _ _ _ h0

lemma optimizedPreEntropy_zero (h w : Nat) (hits misses : List Coordinate)
    (sunk : List SunkShip) (m : ProbabilityMap) (r c : Int) (h0 : m r c = 0) :
    optimizedPreEntropy h w hits misses sunk m r c = 0 := by
  unfold optimizedPreEntropy
  refine applyEnhancedPatternRecognition_zero _ _ _ _ _ _ _
    (boostCells_zero _ _ _ _ _ ?_)
  rw [ite_map_apply]
  split
  · rw [ite_map_apply]
    split
    · exact foldl_preserve (fun mm => mm r c = 0) _
        (fun mm g hp => boostCells_zero _ _ _ _ _ hp) _ m h0
    · exact h0
  · refine boostCells_zero _ _ _ _ _ ?_
    rw [ite_map_apply]
    split
    · exact foldl_preserve (fun mm => mm r c = 0) _
        (fun mm g hp => boostCells_zero _ _ _ _ _ hp) _ m h0
    · exact h0

lemma applyOptimizedStrategy_zero (h w : Nat) (hits misses : List Coordinate)
    (ships : List Nat) (sunk : List SunkShip) (m : ProbabilityMap) (r c : Int)
    (h0 : m r c = 0) : applyOptimizedStrategy h w hits misses ships sunk m r c = 0 := by
  unfold applyOptimizedStrategy
  split
  · exact applyOptimalInitialPattern_zero _ _ _ _ _ _ h0
  · exact applyInformationEntropy_zero _ _ _ _ _ _ _ _
      (optimizedPreEntropy_zero _ _ _ _ _ _ _ _ h0)

lemma normalizeMap_zero (h w : Nat) (m : ProbabilityMap) (r c : Int)
    (h0 : m r c = 0) : normalizeMap h w m r c = 0 := by
  unfold normalizeMap
  split
  · exact h0
  · simp only
    rw [if_neg]
    · exact h0
    · simp [h0]

lemma applyAt_nonneg (f : ℚ → ℚ) (hf : ∀ v, 0 ≤ v → 0 ≤ f v) (p : Coordinate)
    (m : ProbabilityMap) (hm : ∀ r c, 0 ≤ m r c) : ∀ r c, 0 ≤ applyAt f p m r c := by
  intro r c
  unfold applyAt
  split
  · exact hf _ (hm r c)
  · exact hm r c

lemma boostAt_nonneg (k : ℚ) (hk : 0 ≤ k) (p : Coordinate) (m : ProbabilityMap)
    (hm : ∀ r c, 0 ≤ m r c) : ∀ r c, 0 ≤ boostAt k p m r c := by
  refine applyAt_nonneg _ ?_ p m hm
  intro u hu
  split
  · exact mul_nonneg hu hk
  · exact hu

lemma mulAt_nonneg (k : ℚ) (hk : 0 ≤ k) (p : Coordinate) (m : ProbabilityMap)
    (hm : ∀ r c, 0 ≤ m r c) : ∀ r c, 0 ≤ mulAt k p m r c :=
  applyAt_nonneg _ (fun _ hv => mul_nonneg hv hk) p m hm

lemma boostCells_nonneg (k : ℚ) (hk : 0 ≤ k) (cells : List Coordinate)
    (m : ProbabilityMap) (hm : ∀ r c, 0 ≤ m r c) :
    ∀ r c, 0 ≤ boostCells k cells m r c :=
  foldl_preserve (fun mm => ∀ r c, 0 ≤ mm r c) _
    (fun mm p hp => boostAt_nonneg k hk p mm hp) cells m hm

lemma ADJACENCY_FACTOR_nonneg : (0:ℚ) ≤ ADJACENCY_FACTOR := by decide
lemma ALIGNMENT_FACTOR_nonneg : (0:ℚ) ≤ ALIGNMENT_FACTOR := by decide
lemma COMPLETION_FACTOR_nonneg : (0:ℚ) ≤ COMPLETION_FACTOR := by decide
lemma SUPER_ADJACENCY_FACTOR_nonneg : (0:ℚ) ≤ SUPER_ADJACENCY_FACTOR := by decide
lemma SUPER_ALIGNMENT_FACTOR_nonneg : (0:ℚ) ≤ SUPER_ALIGNMENT_FACTOR := by decide
lemma SUPER_COMPLETION_FACTOR_nonneg : (0:ℚ) ≤ SUPER_COMPLETION_FACTOR := by decide
lemma OPTIMIZED_ADJACENCY_FACTOR_nonneg : (0:ℚ) ≤ OPTIMIZED_ADJACENCY_FACTOR := by decide
lemma OPTIMIZED_ALIGNMENT_FACTOR_nonneg : (0:ℚ) ≤ OPTIMIZED_ALIGNMENT_FACTOR := by decide
lemma OPTIMIZED_COMPLETION_FACTOR_nonneg : (0:ℚ) ≤ OPTIMIZED_COMPLETION_FACTOR := by decide
lemma OPTIMIZED_PATTERN_FACTOR_nonneg : (0:ℚ) ≤ OPTIMIZED_PATTERN_FACTOR := by decide

lemma applyCheckerboardPattern_nonneg (h w : Nat) (m : ProbabilityMap)
    (hm : ∀ r c, 0 ≤ m r c) : ∀ r c, 0 ≤ applyCheckerboardPattern h w m r c := by
  intro r c
  unfold applyCheckerboardPattern
  split
  · exact mul_nonneg (hm r c) (by decide)
  · exact hm r c

lemma applyNormalAdjacency_nonneg (h w : Nat) (hits misses : List Coordinate)
    (m : ProbabilityMap) (hm : ∀ r c, 0 ≤ m r c) :
    ∀ r c, 0 ≤ applyNormalAdjacency h w hits misses m r c := by
  refine foldl_preserve (fun mm => ∀ r c, 0 ≤ mm r c) _ ?_ _ m hm
  intro mm p hp
  refine applyAt_nonneg _ ?_ p mm hp
  intro v hv
  have h1 : (0:ℚ) ≤ v * ADJACENCY_FACTOR := by
    have : (0:ℚ) ≤ ADJACENCY_FACTOR := by norm_num [ADJACENCY_FACTOR]
    exact mul_nonneg hv this
  exact le_min (by norm_num) h1

lemma applyTargetingStrategy_nonneg (h w : Nat) (hits misses : List Coordinate)
    (m : ProbabilityMap) (hm : ∀ r c, 0 ≤ m r c) :
    ∀ r c, 0 ≤ applyTargetingStrategy h w hits misses m r c := by
  intro r c
  unfold applyTargetingStrategy
  split
  · exact hm r c
  · rw [ite_map_apply]
    split
    · exact boostCells_nonneg _ ALIGNMENT_FACTOR_nonneg _ _ hm r c
    · exact boostCells_nonneg _ COMPLETION_FACTOR_nonneg _ _
        (boostCells_nonneg _ ADJACENCY_FACTOR_nonneg _ _ hm) r c

lemma patternCornerStep_nonneg (h w : Nat) (hits misses : List Coordinate) (k : ℚ)
    (hk : 0 ≤ k) (m : ProbabilityMap) (h1 h2 : Coordinate)
    (hm : ∀ r c, 0 ≤ m r c) : ∀ r c, 0 ≤ patternCornerStep h w hits misses k m h1 h2 r c := by
  intro r c
  unfold patternCornerStep
  split
  · exact hm r c
  split
  · exact hm r c
  rw [ite_map_apply]
  split
  · refine mulAt_nonneg _ hk _ _ ?_ r c
    intro rr cc
    rw [ite_map_apply]
    split
    · exact mulAt_nonneg _ hk _ _ hm rr cc
    · exact hm rr cc
  · rw [ite_map_apply]
    split
    · exact mulAt_nonneg _ hk _ _ hm r c
    · exact hm r c

lemma applyPatternRecognition_nonneg (h w : Nat) (hits misses : List Coordinate)
    (m : ProbabilityMap) (hm : ∀ r c, 0 ≤ m r c) :
    ∀ r c, 0 ≤ applyPatternRecognition h w hits misses m r c := by
  unfold applyPatternRecognition
  refine foldl_preserve (fun mm => ∀ r c, 0 ≤ mm r c) _ ?_ _ m hm
  intro mm h1 hmm
  exact foldl_preserve (fun mm2 => ∀ r c, 0 ≤ mm2 r c) _
    (fun mm2 h2 hp => patternCornerStep_nonneg _ _ _ _ _ (by decide) _ _ _ hp) _ mm hmm

lemma applySuperAggressiveStrategy_nonneg (h w : Nat) (hits misses : List Coordinate)
    (m : ProbabilityMap) (hm : ∀ r c, 0 ≤ m r c) :
    ∀ r c, 0 ≤ applySuperAggressiveStrategy h w hits misses m r c := by
  intro r c
  unfold applySuperAggressiveStrategy
  split
  · exact applyCheckerboardPattern_nonneg _ _ _ hm r c
  · refine applyPatternRecognition_nonneg _ _ _ _ _ ?_ r c
    refine boostCells_nonneg _ SUPER_COMPLETION_FACTOR_nonneg _ _ ?_
    intro r2 c2
    rw [ite_map_apply]
    split
    · exact foldl_preserve (fun mm => ∀ rr cc, 0 ≤ mm rr cc) _
        (fun mm g hp => boostCells_nonneg _ SUPER_ALIGNMENT_FACTOR_nonneg _ _ hp)
        _ m hm r2 c2
    · exact boostCells_nonneg _ SUPER_ADJACENCY_FACTOR_nonneg _ _ hm r2 c2

lemma spacingGridStage_nonneg (h w : Nat) (spacing : Int) (m : ProbabilityMap)
    (hm : ∀ r c, 0 ≤ m r c) : ∀ r c, 0 ≤ spacingGridStage h w spacing m r c := by
  intro r c
  unfold spacingGridStage
  split
  · exact mul_nonneg (hm r c) (by decide)
  · exact hm r c

lemma centerBoostStage_nonneg (h w : Nat) (m : ProbabilityMap)
    (hm : ∀ r c, 0 ≤ m r c) : ∀ r c, 0 ≤ centerBoostStage h w m r c := by
  intro r c
  unfold centerBoostStage
  split
  · exact mul_nonneg (hm r c) (by decide)
  · exact hm r c

lemma applyOptimalInitialPattern_nonneg (h w : Nat) (ships : List Nat)
    (m : ProbabilityMap) (hm : ∀ r c, 0 ≤ m r c) :
    ∀ r c, 0 ≤ applyOptimalInitialPattern h w ships m r c := by
  intro r c
  unfold applyOptimalInitialPattern
  rw [ite_map_apply]
  split
  · exact centerBoostStage_nonneg _ _ _
      (boostCells_nonneg _ (by decide) _ _ (spacingGridStage_nonneg _ _ _ _ hm)) r c
  · exact spacingGridStage_nonneg _ _ _ _ hm r c

lemma applyEnhancedPatternRecognition_nonneg (h w : Nat) (hits misses : List Coordinate)
    (m : ProbabilityMap) (hm : ∀ r c, 0 ≤ m r c) :
    ∀ r c, 0 ≤ applyEnhancedPatternRecognition h w hits misses m r c := by
  unfold applyEnhancedPatternRecognition
  refine foldl_preserve (fun mm => ∀ r c, 0 ≤ mm r c) _ ?_ _ _ ?_
  · intro mm h1 hmm
    exact foldl_preserve (fun mm2 => ∀ r c, 0 ≤ mm2 r c) _
      (fun mm2 h2 hp => patternCornerStep_nonneg _ _ _ _ _
        OPTIMIZED_PATTERN_FACTOR_nonneg _ _ _ hp) _ mm hmm
  · refine foldl_preserve (fun mm => ∀ r c, 0 ≤ mm r c) _ ?_ _ m hm
    intro mm hit hmm
    refine foldl_preserve (fun mm2 => ∀ r c, 0 ≤ mm2 r c) _ ?_ _ mm hmm
    intro mm2 d hp r c
    rw [ite_map_apply]
    split
    · exact boostAt_nonneg _ (by decide) _ _ hp r c
    · exact hp r c

lemma normalizedEntropy_nonneg (h w : Nat) (misses : List Coordinate)
    (ships : List Nat) (m : ProbabilityMap) (r c : Int) :
    0 ≤ normalizedEntropy h w misses ships m r c := by
  unfold normalizedEntropy
  dsimp only
  split
  · exact div_nonneg (Nat.cast_nonneg _) (Nat.cast_nonneg _)
  · exact Nat.cast_nonneg _

lemma entropyBlendStage_nonneg (h w : Nat) (misses : List Coordinate)
    (ships : List Nat) (m : ProbabilityMap) (hm : ∀ r c, 0 ≤ m r c) :
    ∀ r c, 0 ≤ entropyBlendStage h w misses ships m r c := by
  intro r c
  unfold entropyBlendStage
  split
  · have h1 : (0:ℚ) ≤ (1 - ENTROPY_WEIGHT) * m r c :=
      mul_nonneg (by decide) (hm r c)
    have h2 : (0:ℚ) ≤ ENTROPY_WEIGHT * normalizedEntropy h w misses ships m r c :=
      mul_nonneg (by decide) (normalizedEntropy_nonneg h w misses ships m r c)
    exact add_nonneg h1 h2
  · exact hm r c

lemma applyInformationEntropy_nonneg (h w : Nat) (hits misses : List Coordinate)
    (ships : List Nat) (m : ProbabilityMap) (hm : ∀ r c, 0 ≤ m r c) :
    ∀ r c, 0 ≤ applyInformationEntropy h w hits misses ships m r c := by
  intro r c
  unfold applyInformationEntropy
  split
  · exact hm r c
  · exact entropyBlendStage_nonneg _ _ _ _ _ hm r c

lemma optimizedPreEntropy_nonneg (h w : Nat) (hits misses : List Coordinate)
    (sunk : List SunkShip) (m : ProbabilityMap) (hm : ∀ r c, 0 ≤ m r c) :
    ∀ r c, 0 ≤ optimizedPreEntropy h w hits misses sunk m r c := by
  unfold optimizedPreEntropy
  refine applyEnhancedPatternRecognition_nonneg _ _ _ _ _
    (boostCells_nonneg _ OPTIMIZED_COMPLETION_FACTOR_nonneg _ _ ?_)
  intro r c
  rw [ite_map_apply]
  have hm1 : ∀ rr cc, 0 ≤ (if 1 ≤ (findAlignedHits (getActiveHits hits sunk)).length then
      List.foldl (fun acc g => boostCells OPTIMIZED_ALIGNMENT_FACTOR
        (getExtensionPoints g.coordinates g.direction h w misses) acc) m
        (findAlignedHits (getActiveHits hits sunk))
    else m) rr cc := by
    intro rr cc
    rw [ite_map_apply]
    split
    · exact foldl_preserve (fun mm => ∀ a b, 0 ≤ mm a b) _
        (fun mm g hp => boostCells_nonneg _ OPTIMIZED_ALIGNMENT_FACTOR_nonneg _ _ hp)
        _ m hm rr cc
    · exact hm rr cc
  split
  · exact hm1 r c
  · exact boostCells_nonneg _ OPTIMIZED_ADJACENCY_FACTOR_nonneg _ _ hm1 r c

lemma applyOptimizedStrategy_nonneg (h w : Nat) (hits misses : List Coordinate)
    (ships : List Nat) (sunk : List SunkShip) (m : ProbabilityMap)
    (hm : ∀ r c, 0 ≤ m r c) : ∀ r c, 0 ≤ applyOptimizedStrategy h w hits misses ships sunk m r c := by
  intro r c
  unfold applyOptimizedStrategy
  split
  · exact applyOptimalInitialPattern_nonneg _ _ _ _ hm r c
  · exact applyInformationEntropy_nonneg _ _ _ _ _ _
      (optimizedPreEntropy_nonneg _ _ _ _ _ _ hm) r c

lemma baseProbabilityMap_nonneg (h w : Nat) (hits misses : List Coordinate)
    (ships : List Nat) (sunk : List SunkShip) :
    ∀ r c, 0 ≤ baseProbabilityMap h w hits misses ships sunk r c := by
  intro r c
  unfold baseProbabilityMap
  split
  · split
    · exact le_refl 0
    · exact div_nonneg (Nat.cast_nonneg _) (Nat.cast_nonneg _)
  · exact le_refl 0

lemma boostedMap_nonneg (h w : Nat) (hits misses : List Coordinate)
    (ships : List Nat) (mode : ProbabilityMode) (sunk : List SunkShip) :
    ∀ r c, 0 ≤ boostedMap h w hits misses ships mode sunk r c := by
  unfold boostedMap
  cases heff : effectiveMode mode hits
  all_goals simp only
  · exact applyNormalAdjacency_nonneg _ _ _ _ _ (baseProbabilityMap_nonneg _ _ _ _ _ _)
  · exact applyCheckerboardPattern_nonneg _ _ _ (baseProbabilityMap_nonneg _ _ _ _ _ _)
  · exact applyTargetingStrategy_nonneg _ _ _ _ _ (baseProbabilityMap_nonneg _ _ _ _ _ _)
  · exact applySuperAggressiveStrategy_nonneg _ _ _ _ _ (baseProbabilityMap_nonneg _ _ _ _ _ _)
  · exact applyOptimizedStrategy_nonneg _ _ _ _ _ _ _ (baseProbabilityMap_nonneg _ _ _ _ _ _)

lemma isCoordinateInList_eq_true {p : Coordinate} {l : List Coordinate} (hp : p ∈ l) :
    isCoordinateInList p l = true := by
  simp only [isCoordinateInList, List.any_eq_true, decide_eq_true_eq]
  exact ⟨p, hp, rfl⟩

lemma isCoordinateInList_eq_false {p : Coordinate} {l : List Coordinate} (hp : p ∉ l) :
    isCoordinateInList p l = false := by
  simp only [isCoordinateInList, List.any_eq_false, decide_eq_true_eq]
  intro x hx hxp
  exact hp (hxp ▸ hx)

lemma isValidCell_coe (h w r c : Nat) (hr : r < h) (hc : c < w) :
    isValidCell (r : Int) (c : Int) h w = true := by
  simp only [isValidCell, Bool.and_eq_true, decide_eq_true_eq]
  refine ⟨⟨⟨?_, ?_⟩, ?_⟩, ?_⟩ <;> omega

lemma posPart_nonneg (x : ℚ) : 0 ≤ if 0 < x then x else 0 := by
  split
  · linarith
  · exact le_refl 0

lemma sumPositive_nonneg (h w : Nat) (m : ProbabilityMap) : 0 ≤ sumPositive h w m :=
  Finset.sum_nonneg (fun _ _ => Finset.sum_nonneg (fun _ _ => posPart_nonneg _))

lemma le_sumPositive (h w : Nat) (m : ProbabilityMap) (r c : Nat)
    (hr : r < h) (hc : c < w) :
    (if 0 < m (r : Int) (c : Int) then m (r : Int) (c : Int) else 0) ≤ sumPositive h w m := by
  unfold sumPositive
  calc (if 0 < m (r : Int) (c : Int) then m (r : Int) (c : Int) else 0)
      ≤ ∑ cc ∈ Finset.range w, (if 0 < m (r : Int) (cc : Int) then m (r : Int) (cc : Int) else 0) :=
        Finset.single_le_sum (fun i _ => posPart_nonneg _) (Finset.mem_range.mpr hc)
    _ ≤ ∑ rr ∈ Finset.range h, ∑ cc ∈ Finset.range w,
          (if 0 < m (rr : Int) (cc : Int) then m (rr : Int) (cc : Int) else 0) :=
        Finset.single_le_sum
          (fun i _ => Finset.sum_nonneg (fun j _ => posPart_nonneg _))
          (Finset.mem_range.mpr hr)

lemma one_le_countPositive (h w : Nat) (m : ProbabilityMap) (r c : Nat)
    (hr : r < h) (hc : c < w) (hpos : 0 < m (r : Int) (c : Int)) :
    1 ≤ countPositive h w m := by
  unfold countPositive
  calc (1 : ℕ) = (if 0 < m (r : Int) (c : Int) then 1 else 0) := by rw [if_pos hpos]
    _ ≤ ∑ cc ∈ Finset.range w, (if 0 < m (r : Int) (cc : Int) then 1 else 0) :=
        @Finset.single_le_sum ℕ ℕ _
          (fun cc => if 0 < m (r : Int) (cc : Int) then 1 else 0)
          (Finset.range w) (fun i _ => Nat.zero_le _) c (Finset.mem_range.mpr hc)
    _ ≤ ∑ rr ∈ Finset.range h, ∑ cc ∈ Finset.range w,
          (if 0 < m (rr : Int) (cc : Int) then 1 else 0) :=
        @Finset.single_le_sum ℕ ℕ _
          (fun rr => ∑ cc ∈ Finset.range w, (if 0 < m (rr : Int) (cc : Int) then 1 else 0))
          (Finset.range h) (fun i _ => Nat.zero_le _) r (Finset.mem_range.mpr hr)

lemma normalizeMap_eq_div (h w : Nat) (m : ProbabilityMap)
    (hcond : ¬(countPositive h w m = 0 ∨ sumPositive h w m = 0)) (r c : Int) :
    normalizeMap h w m r c =
      if isValidCell r c h w && decide (0 < m r c)
      then m r c / sumPositive h w m else m r c := by
  unfold normalizeMap
  rw [if_neg hcond]

/-- C3: for every well-formed input, if the returned map has at least one
strictly positive cell then the positive cells sum to exactly `1`, every cell
that was `0` before the final normalization stays `0`, and every cell value is
at most `1`. -/
theorem final_map_normalized (h w : Nat) (hits misses : List Coordinate)
    (ships : List Nat) (mode : ProbabilityMode) (sunk : List SunkShip)
    (hex : ∃ r : Nat, r < h ∧ ∃ c : Nat, c < w ∧
      0 < calculateProbabilityMap h w hits misses ships mode sunk (r : Int) (c : Int)) :
    sumPositive h w (calculateProbabilityMap h w hits misses ships mode sunk) = 1 ∧
    (∀ r c : Int, boostedMap h w hits misses ships mode sunk r c = 0 →
      calculateProbabilityMap h w hits misses ships mode sunk r c = 0) ∧
    (∀ r : Nat, r < h → ∀ c : Nat, c < w →
      calculateProbabilityMap h w hits misses ships mode sunk (r : Int) (c : Int) ≤ 1) := by
  obtain ⟨r0, hr0, c0, hc0, hpos0⟩ := hex
  by_cases hs : ships = []
  · exfalso
    have e1 : calculateProbabilityMap h w hits misses ships mode sunk = fun _ _ => 0 := by
      unfold calculateProbabilityMap
      rw [if_pos hs]
    rw [e1] at hpos0
    exact lt_irrefl 0 hpos0
  by_cases ht : totalPlacements h w hits misses ships sunk = 0
  · exfalso
    have e2 : calculateProbabilityMap h w hits misses ships mode sunk = fun _ _ => 0 := by
      unfold calculateProbabilityMap
      rw [if_neg hs, if_pos ht]
    rw [e2] at hpos0
    exact lt_irrefl 0 hpos0
  have hfinal : calculateProbabilityMap h w hits misses ships mode sunk =
      normalizeMap h w (boostedMap h w hits misses ships mode sunk) := by
    unfold calculateProbabilityMap
    rw [if_neg hs, if_neg ht]
  set m := boostedMap h w hits misses ships mode sunk with hm_def
  have hm : ∀ r c, 0 ≤ m r c := boostedMap_nonneg h w hits misses ships mode sunk
  rw [hfinal] at hpos0
  have hcond : ¬(countPositive h w m = 0 ∨ sumPositive h w m = 0) := by
    intro hcond
    have hfix : normalizeMap h w m = m := by
      unfold normalizeMap
      rw [if_pos hcond]
    rw [hfix] at hpos0
    rcases hcond with hc1 | hc2
    · have := one_le_countPositive h w m r0 c0 hr0 hc0 hpos0
      omega
    · have hle := le_sumPositive h w m r0 c0 hr0 hc0
      rw [if_pos hpos0, hc2] at hle
      linarith
  have hS : 0 < sumPositive h w m := by
    rcases lt_or_eq_of_le (sumPositive_nonneg h w m) with h1 | h1
    · exact h1
    · exact absurd (Or.inr h1.symm) hcond
  have hSne : sumPositive h w m ≠ 0 := ne_of_gt hS
  refine ⟨?_, ?_, ?_⟩
  · rw [hfinal]
    have hcell : ∀ r : Nat, r < h → ∀ c : Nat, c < w →
        (if 0 < normalizeMap h w m (r : Int) (c : Int)
         then normalizeMap h w m (r : Int) (c : Int) else 0) =
        (if 0 < m (r : Int) (c : Int) then m (r : Int) (c : Int) else 0) /
          sumPositive h w m := by
      intro r hr c hc
      rw [normalizeMap_eq_div h w m hcond, isValidCell_coe h w r c hr hc]
      by_cases hp : 0 < m (r : Int) (c : Int)
      · have hct : (true && decide (0 < m (r : Int) (c : Int))) = true := by simp [hp]
        rw [if_pos hct, if_pos (div_pos hp hS), if_pos hp]
      · have h0 : m (r : Int) (c : Int) = 0 := le_antisymm (not_lt.mp hp) (hm _ _)
        simp [hp, h0]
    unfold sumPositive
    rw [Finset.sum_congr rfl (fun r hr => Finset.sum_congr rfl
      (fun c hc => hcell r (Finset.mem_range.mp hr) c (Finset.mem_range.mp hc)))]
    simp only [← Finset.sum_div]
    exact div_self hSne
  · intro r c h0
    rw [hfinal]
    exact normalizeMap_zero h w m r c h0
  · intro r hr c hc
    rw [hfinal, normalizeMap_eq_div h w m hcond, isValidCell_coe h w r c hr hc]
    by_cases hp : 0 < m (r : Int) (c : Int)
    · have hct : (true && decide (0 < m (r : Int) (c : Int))) = true := by simp [hp]
      rw [if_pos hct, div_le_one hS]
      have hle := le_sumPositive h w m r c hr hc
      rw [if_pos hp] at hle
      exact hle
    · have h0 : m (r : Int) (c : Int) = 0 := le_antisymm (not_lt.mp hp) (hm _ _)
      simp [hp, h0]

/-- Witness for C3 at a concrete position: the positive cells of the returned
map sum to exactly one. -/
theorem final_map_normalized_witness :
    sumPositive 3 3 (calculateProbabilityMap 3 3 [(0, 0)] [(2, 2)] [2]
      ProbabilityMode.HUNTING []) = 1 :=
  (final_map_normalized 3 3 [(0, 0)] [(2, 2)] [2] ProbabilityMode.HUNTING []
    ⟨1, by decide, 1, by decide, by decide⟩).1

lemma baseProbabilityMap_zero_at (h w : Nat) (hits misses : List Coordinate)
    (ships : List Nat) (sunk : List SunkShip) (p : Coordinate)
    (hp : p ∈ hits ∨ p ∈ misses) :
    baseProbabilityMap h w hits misses ships sunk p.1 p.2 = 0 := by
  unfold baseProbabilityMap
  split
  · rw [if_pos]
    rcases hp with hp | hp <;> simp [isCoordinateInList_eq_true hp]
  · rfl

lemma boostedMap_zero_at (h w : Nat) (hits misses : List Coordinate)
    (ships : List Nat) (mode : ProbabilityMode) (sunk : List SunkShip)
    (p : Coordinate) (hp : p ∈ hits ∨ p ∈ misses) :
    boostedMap h w hits misses ships mode sunk p.1 p.2 = 0 := by
  unfold boostedMap
  cases heff : effectiveMode mode hits
  all_goals simp only
  · exact applyNormalAdjacency_zero _ _ _ _ _ _ _
      (baseProbabilityMap_zero_at _ _ _ _ _ _ _ hp)
  · exact applyCheckerboardPattern_zero _ _ _ _ _
      (baseProbabilityMap_zero_at _ _ _ _ _ _ _ hp)
  · exact applyTargetingStrategy_zero _ _ _ _ _ _ _
      (baseProbabilityMap_zero_at _ _ _ _ _ _ _ hp)
  · exact applySuperAggressiveStrategy_zero _ _ _ _ _ _ _
      (baseProbabilityMap_zero_at _ _ _ _ _ _ _ hp)
  · exact applyOptimizedStrategy_zero _ _ _ _ _ _ _ _ _
      (baseProbabilityMap_zero_at _ _ _ _ _ _ _ hp)

/-- C2: for every well-formed input and every mode, the returned map is
exactly `0` at every Hit coordinate and at every Miss coordinate. -/
theorem hit_miss_cells_zero (h w : Nat) (hits misses : List Coordinate)
    (ships : List Nat) (mode : ProbabilityMode) (sunk : List SunkShip)
    (_hh : 0 < h) (_hw : 0 < w)
    (_hhits : ∀ p ∈ hits, isValidCell p.1 p.2 h w = true)
    (_hmisses : ∀ p ∈ misses, isValidCell p.1 p.2 h w = true)
    (_hdisj : ∀ p ∈ hits, p ∉ misses) :
    ∀ p : Coordinate, p ∈ hits ∨ p ∈ misses →
      calculateProbabilityMap h w hits misses ships mode sunk p.1 p.2 = 0 := by
  intro p hp
  unfold calculateProbabilityMap
  rw [ite_map_apply, ite_map_apply]
  split
  · rfl
  split
  · rfl
  exact normalizeMap_zero _ _ _ _ _ (boostedMap_zero_at _ _ _ _ _ _ _ _ hp)

/-- Witness for C2: a hit cell of a concrete position evaluates to zero. -/
theorem hit_miss_cells_zero_witness :
    calculateProbabilityMap 3 3 [(0, 0)] [(2, 2)] [2]
      ProbabilityMode.SUPER_AGGRESSIVE [] 0 0 = 0 :=
  hit_miss_cells_zero 3 3 [(0, 0)] [(2, 2)] [2] ProbabilityMode.SUPER_AGGRESSIVE []
    (by decide) (by decide) (by decide) (by decide) (by decide)
    ((0 : Int), (0 : Int)) (Or.inl (by decide))

/-- C1 counterexample: for the specification's contradictory position (a Hit
at `(0,0)`, Misses at `(0,1)` and `(1,0)`, one remaining ship of length 2, in
an instance board), the engine does NOT return an all-zero map: placements
that overlap no hit survive, so cell `(2,2)` is strictly positive. -/
theorem contradictory_hits_map_not_zero :
    calculateProbabilityMap 4 4 [(0, 0)] [(0, 1), (1, 0)] [2]
      ProbabilityMode.HUNTING [] 2 2 ≠ 0 := by decide

/-- C1 amended: the engine returns an all-zero map exactly when the total
number of surviving placements is zero (which an unexplained Hit alone does
not force). -/
theorem all_zero_of_no_placements (h w : Nat) (hits misses : List Coordinate)
    (ships : List Nat) (mode : ProbabilityMode) (sunk : List SunkShip)
    (htot : totalPlacements h w hits misses ships sunk = 0) :
    ∀ r c : Int, calculateProbabilityMap h w hits misses ships mode sunk r c = 0 := by
  intro r c
  unfold calculateProbabilityMap
  rw [ite_map_apply, ite_map_apply, if_pos htot]
  split <;> rfl

/-- Witness for the amended C1: on a 2×2 board the same contradictory data
leaves no surviving placement and the map is all zero. -/
theorem all_zero_of_no_placements_witness :
    totalPlacements 2 2 [(0, 0)] [(0, 1), (1, 0)] [2] [] = 0 ∧
    calculateProbabilityMap 2 2 [(0, 0)] [(0, 1), (1, 0)] [2]
      ProbabilityMode.NORMAL [] 1 1 = 0 :=
  ⟨by decide, all_zero_of_no_placements 2 2 [(0, 0)] [(0, 1), (1, 0)] [2]
    ProbabilityMode.NORMAL [] (by decide) 1 1⟩

/-- C5: with a non-empty Hit set, NORMAL mode computes exactly the TARGETING
map (the auto-upgrade), and being a pure function of its value arguments the
call cannot change the caller's mode or inputs. -/
theorem normal_upgrades_to_targeting (h w : Nat) (hits misses : List Coordinate)
    (ships : List Nat) (sunk : List SunkShip) (hne : hits ≠ []) :
    calculateProbabilityMap h w hits misses ships ProbabilityMode.NORMAL sunk =
    calculateProbabilityMap h w hits misses ships ProbabilityMode.TARGETING sunk := by
  unfold calculateProbabilityMap boostedMap effectiveMode
  simp [hne]

/-- Witness for C5 at a concrete position. -/
theorem normal_upgrades_to_targeting_witness :
    calculateProbabilityMap 3 3 [(0, 0)] [] [2] ProbabilityMode.NORMAL [] =
    calculateProbabilityMap 3 3 [(0, 0)] [] [2] ProbabilityMode.TARGETING [] :=
  normal_upgrades_to_targeting 3 3 [(0, 0)] [] [2] [] (by decide)

/-- C6: with no remaining ships the engine returns a height×width grid of
zeros, for every board size, hit/miss data, mode and sunk-ship record. -/
theorem empty_ships_zero_grid (h w : Nat) (hits misses : List Coordinate)
    (mode : ProbabilityMode) (sunk : List SunkShip) :
    probabilityGrid h w hits misses [] mode sunk =
      List.replicate h (List.replicate w 0) := by
  have hcell : ∀ r c : Int,
      calculateProbabilityMap h w hits misses [] mode sunk r c = 0 := by
    intro r c
    unfold calculateProbabilityMap
    rw [if_pos rfl]
  unfold probabilityGrid
  refine List.eq_replicate_iff.mpr ⟨by simp, ?_⟩
  intro row hrow
  simp only [List.mem_map] at hrow
  obtain ⟨r, hr, rfl⟩ := hrow
  refine List.eq_replicate_iff.mpr ⟨by simp, ?_⟩
  intro x hx
  simp only [List.mem_map] at hx
  obtain ⟨c, hc, rfl⟩ := hx
  exact hcell r c

/-- C10: outside OPTIMIZED mode the `sunkShips` argument has no effect on the
output, and placement enumeration never excludes placements for sunk ships. -/
theorem sunk_ships_no_effect_outside_optimized (h w : Nat)
    (hits misses : List Coordinate) (ships : List Nat) (mode : ProbabilityMode)
    (s1 s2 : List SunkShip) (hmode : mode ≠ ProbabilityMode.OPTIMIZED) :
    (∀ L : Nat, generateValidPlacements h w L hits misses s1 =
      generateValidPlacements h w L hits misses s2) ∧
    ∀ r c : Int, calculateProbabilityMap h w hits misses ships mode s1 r c =
      calculateProbabilityMap h w hits misses ships mode s2 r c := by
  refine ⟨fun L => rfl, ?_⟩
  intro r c
  cases mode with
  | OPTIMIZED => exact absurd rfl hmode
  | NORMAL =>
    by_cases hne : hits = []
    · subst hne
      rfl
    · unfold calculateProbabilityMap boostedMap effectiveMode
      simp only [hne, ne_eq, not_false_iff, and_true, if_pos, true_and]
      rfl
  | HUNTING => rfl
  | TARGETING => rfl
  | SUPER_AGGRESSIVE => rfl

/-- Witness for C10: adding a sunk ship leaves a HUNTING-mode cell unchanged. -/
theorem sunk_ships_no_effect_witness :
    calculateProbabilityMap 3 3 [(0, 0)] [] [2] ProbabilityMode.HUNTING
      [⟨1, [(2, 2)]⟩] 1 1 =
    calculateProbabilityMap 3 3 [(0, 0)] [] [2] ProbabilityMode.HUNTING [] 1 1 :=
  (sunk_ships_no_effect_outside_optimized 3 3 [(0, 0)] [] [2]
    ProbabilityMode.HUNTING [⟨1, [(2, 2)]⟩] [] (by decide)).2 1 1

lemma isConsistentWithHits_nil (p : List Coordinate) :
    isConsistentWithHits p [] = true := rfl

lemma noMiss_nil (p : List Coordinate) : noMiss p [] = true := by
  unfold noMiss
  rw [List.all_eq_true]
  intro x hx
  rfl

lemma generateValidPlacements_no_filter (h w L : Nat) :
    generateValidPlacements h w L [] [] [] = specPlacements h w L := by
  unfold generateValidPlacements specPlacements
  rw [List.filter_eq_self.mpr]
  intro p hp
  rw [noMiss_nil, isConsistentWithHits_nil]
  rfl

lemma segmentH_nodup (r c : Int) (len : Nat) : (segmentH r c len).Nodup := by
  unfold segmentH
  refine List.Nodup.map ?_ (List.nodup_range len)
  intro i j hij
  have : c + (i : Int) = c + (j : Int) := congrArg Prod.snd hij
  omega

lemma segmentV_nodup (r c : Int) (len : Nat) : (segmentV r c len).Nodup := by
  unfold segmentV
  refine List.Nodup.map ?_ (List.nodup_range len)
  intro i j hij
  have : r + (i : Int) = r + (j : Int) := congrArg Prod.fst hij
  omega

lemma specPlacements_nodup (h w L : Nat) :
    ∀ p ∈ specPlacements h w L, p.Nodup := by
  intro p hp
  unfold specPlacements at hp
  rcases List.mem_append.mp hp with hh | hv
  · simp only [List.mem_flatMap, List.mem_map] at hh
    obtain ⟨r, _, c, _, rfl⟩ := hh
    exact segmentH_nodup _ _ _
  · simp only [List.mem_flatMap, List.mem_map] at hv
    obtain ⟨r, _, c, _, rfl⟩ := hv
    exact segmentV_nodup _ _ _

lemma count_one_of_nodup (a : Coordinate) :
    ∀ (l : List Coordinate), l.Nodup → a ∈ l → l.count a = 1 := by
  intro l
  induction l with
  | nil => intro _ hmem; cases hmem
  | cons b t ih =>
    intro hnd hmem
    rw [List.count_cons]
    rcases List.mem_cons.mp hmem with rfl | hmem2
    · have hbt : a ∉ t := (List.nodup_cons.mp hnd).1
      rw [List.count_eq_zero.mpr hbt]
      simp
    · have hab : a ≠ b := fun he => (List.nodup_cons.mp hnd).1 (he ▸ hmem2)
      rw [ih (List.nodup_cons.mp hnd).2 hmem2]
      simp [hab, Ne.symm hab]

lemma sum_count_eq_filter_length (q : Coordinate) :
    ∀ (ps : List (List Coordinate)), (∀ p ∈ ps, p.Nodup) →
      ((ps.map (fun p => p.count q)).sum =
        (ps.filter (fun p => isCoordinateInList q p)).length) := by
  intro ps
  induction ps with
  | nil => intro _; rfl
  | cons p t ih =>
    intro hnd
    simp only [List.map_cons, List.sum_cons, List.filter_cons]
    by_cases hq : q ∈ p
    · rw [count_one_of_nodup q p (hnd p (List.mem_cons_self p t)) hq,
        if_pos (isCoordinateInList_eq_true hq), List.length_cons,
        ih (fun x hx => hnd x (List.mem_cons_of_mem p hx))]
      omega
    · rw [List.count_eq_zero.mpr hq, if_neg, ih (fun x hx => hnd x (List.mem_cons_of_mem p hx))]
      · omega
      · rw [isCoordinateInList_eq_false hq]
        simp

/-- C7: with empty Hit and Miss sets and a single remaining ship length, every
in-bounds cell of the base probability map equals the number of in-bounds
axis-aligned placements covering the cell divided by the total number of such
placements. -/
theorem uniform_base_probability (h w L : Nat)
    (_hh : 0 < h) (_hw : 0 < w) (_hL : 0 < L) (_hfit : L ≤ h ∨ L ≤ w)
    (r c : Int) (hin : isValidCell r c h w = true) :
    baseProbabilityMap h w [] [] [L] [] r c =
      (specCoverCount h w L r c : ℚ) / (specTotalPlacements h w L : ℚ) := by
  unfold baseProbabilityMap
  rw [if_pos hin, if_neg (by simp [isCoordinateInList])]
  have hcount : cellPlacementCount h w [] [] [L] [] r c = specCoverCount h w L r c := by
    unfold cellPlacementCount specCoverCount
    simp only [List.map_cons, List.map_nil, List.sum_cons, List.sum_nil, Nat.add_zero]
    rw [generateValidPlacements_no_filter]
    exact sum_count_eq_filter_length (r, c) (specPlacements h w L) (specPlacements_nodup h w L)
  have htotal : totalPlacements h w [] [] [L] [] = specTotalPlacements h w L := by
    unfold totalPlacements specTotalPlacements
    simp only [List.map_cons, List.map_nil, List.sum_cons, List.sum_nil, Nat.add_zero]
    rw [generateValidPlacements_no_filter]
  rw [hcount, htotal]

/-- Witness for C7 at a concrete position: the centre cell of a 3×3 board with
one ship of length 2. -/
theorem uniform_base_probability_witness :
    baseProbabilityMap 3 3 [] [] [2] [] 1 1 =
      (specCoverCount 3 3 2 1 1 : ℚ) / (specTotalPlacements 3 3 2 : ℚ) :=
  uniform_base_probability 3 3 2 (by decide) (by decide) (by decide)
    (Or.inl (by decide)) 1 1 (by decide)

lemma boostCells_cons (k : ℚ) (p : Coordinate) (t : List Coordinate)
    (m : ProbabilityMap) : boostCells k (p :: t) m = boostCells k t (boostAt k p m) := rfl

lemma boostCells_count_apply (k : ℚ) (hk : 0 < k) :
    ∀ (cells : List Coordinate) (m : ProbabilityMap) (r c : Int),
      boostCells k cells m r c =
        if 0 < m r c then m r c * k ^ (cells.count (r, c)) else m r c := by
  intro cells
  induction cells with
  | nil =>
    intro m r c
    simp only [boostCells, List.foldl_nil, List.count_nil, pow_zero, mul_one]
    split <;> rfl
  | cons p t ih =>
    intro m r c
    rw [boostCells_cons, ih]
    by_cases hp : ((r, c) : Coordinate) = p
    · by_cases h0 : 0 < m r c
      · have hval : boostAt k p m r c = m r c * k := by
          simp only [boostAt, applyAt]
          rw [if_pos hp, if_pos h0]
        rw [hval, if_pos (mul_pos h0 hk), if_pos h0, List.count_cons]
        have hbeq : (p == ((r, c) : Coordinate)) = true := by simp [hp.symm]
        rw [hbeq]
        simp only [if_pos, pow_succ]
        ring
      · have hval : boostAt k p m r c = m r c := by
          simp only [boostAt, applyAt]
          rw [if_pos hp, if_neg h0]
        rw [hval, if_neg h0, if_neg h0]
    · have hval : boostAt k p m r c = m r c := by
        simp only [boostAt, applyAt]
        rw [if_neg hp]
      rw [hval, List.count_cons]
      have hbeq : (p == ((r, c) : Coordinate)) = false := by
        simp [Ne.symm hp]
      rw [hbeq]
      simp

/-- C4 counterexample: with exactly two aligned hits (one aligned group) the
TARGETING pass does NOT multiply an extension point by the 4.0 alignment
factor; it falls into the adjacency branch instead. -/
theorem targeting_alignment_counterexample :
    applyTargetingStrategy 4 4 [(1, 1), (1, 2)] []
      (baseProbabilityMap 4 4 [(1, 1), (1, 2)] [] [4] []) 1 0 ≠
    ALIGNMENT_FACTOR * baseProbabilityMap 4 4 [(1, 1), (1, 2)] [] [4] [] 1 0 := by decide

/-- C4 amended: the TARGETING pass boosts by the 4.0 alignment factor only
when at least two aligned GROUPS exist, and then only the extension points of
the FIRST group (once per occurrence, on positive cells); otherwise positive
4-neighbours of the hits are tripled and positive completion cells multiplied
by 5.0 per occurrence. -/
theorem targeting_branch_behavior (h w : Nat) (hits misses : List Coordinate)
    (m : ProbabilityMap) (r c : Int) :
    applyTargetingStrategy h w hits misses m r c =
      if hits.isEmpty then m r c
      else if 2 ≤ (findAlignedHits hits).length then
        (if 0 < m r c then
          m r c * ALIGNMENT_FACTOR ^
            ((getExtensionPoints (findAlignedHits hits).headI.coordinates
              (findAlignedHits hits).headI.direction h w misses).count (r, c))
         else m r c)
      else
        (if 0 < m r c then
          m r c * ADJACENCY_FACTOR ^ ((getAdjacentCells h w hits misses).count (r, c)) *
            COMPLETION_FACTOR ^
              ((findPotentialCompletions h w hits misses
                (findSmallestRemainingShip
                  (boostCells ADJACENCY_FACTOR (getAdjacentCells h w hits misses) m)
                  h w)).count (r, c))
         else m r c) := by
  unfold applyTargetingStrategy
  by_cases he : hits.isEmpty = true
  · rw [if_pos he, if_pos he]
  · rw [if_neg he, if_neg he]
    rw [ite_map_apply]
    by_cases h2 : 2 ≤ (findAlignedHits hits).length
    · rw [if_pos h2, if_pos h2, boostCells_count_apply ALIGNMENT_FACTOR (by decide)]
    · rw [if_neg h2, if_neg h2,
        boostCells_count_apply COMPLETION_FACTOR (by decide),
        boostCells_count_apply ADJACENCY_FACTOR (by decide)]
      by_cases h0 : 0 < m r c
      · have hpos : 0 < m r c *
            ADJACENCY_FACTOR ^ ((getAdjacentCells h w hits misses).count (r, c)) :=
          mul_pos h0 (pow_pos (by decide) _)
        rw [if_pos h0, if_pos h0, if_pos hpos]
      · rw [if_neg h0, if_neg h0, if_neg h0]

/-- C8 counterexample: in TARGETING mode, for two adjacent hits in row 2 of a
5×5 board with one remaining ship of length 5, the horizontal extension cell
`(2,3)` does NOT get a strictly higher value than the perpendicular
distance-1 cell `(1,1)` — the two cells are equal. -/
theorem targeting_extension_not_higher :
    ¬ (calculateProbabilityMap 5 5 [(2, 1), (2, 2)] [] [5]
        ProbabilityMode.TARGETING [] 1 1 <
       calculateProbabilityMap 5 5 [(2, 1), (2, 2)] [] [5]
        ProbabilityMode.TARGETING [] 2 3) := by decide

/-- C8 amended: under OPTIMIZED mode the alignment boost does fire for a
single aligned pair, and at the representative position (5×5 board, hits
`(2,1)` and `(2,2)`, no misses, one ship of length 5, no sunk ships) each of
the two horizontal extension cells has a strictly higher returned value than
every perpendicular cell at distance 1 from the pair. -/
theorem optimized_extension_cells_dominant :
    (c8OptimizedMap 1 1 < c8OptimizedMap 2 0 ∧ c8OptimizedMap 1 1 < c8OptimizedMap 2 3) ∧
    (c8OptimizedMap 1 2 < c8OptimizedMap 2 0 ∧ c8OptimizedMap 1 2 < c8OptimizedMap 2 3) ∧
    (c8OptimizedMap 3 1 < c8OptimizedMap 2 0 ∧ c8OptimizedMap 3 1 < c8OptimizedMap 2 3) ∧
    (c8OptimizedMap 3 2 < c8OptimizedMap 2 0 ∧ c8OptimizedMap 3 2 < c8OptimizedMap 2 3) := by
  decide

/-- C9 counterexample: the entropy-blend decision is taken on ALL hits, not on
the active hits.  With two sunk aligned pairs and one isolated active hit the
code skips the blend (2 aligned groups among all hits) although the claim
demands it (0 aligned groups among active hits), and the outputs differ at
cell `(0,2)`. -/
theorem entropy_decision_counterexample :
    applyOptimizedStrategy 4 4 [(0, 0), (0, 1), (2, 0), (2, 1), (3, 3)] [] [2]
      [⟨2, [(0, 0), (0, 1)]⟩, ⟨2, [(2, 0), (2, 1)]⟩]
      (baseProbabilityMap 4 4 [(0, 0), (0, 1), (2, 0), (2, 1), (3, 3)] [] [2]
        [⟨2, [(0, 0), (0, 1)]⟩, ⟨2, [(2, 0), (2, 1)]⟩]) 0 2 ≠
    claimedOptimizedStrategy 4 4 [(0, 0), (0, 1), (2, 0), (2, 1), (3, 3)] [] [2]
      [⟨2, [(0, 0), (0, 1)]⟩, ⟨2, [(2, 0), (2, 1)]⟩]
      (baseProbabilityMap 4 4 [(0, 0), (0, 1), (2, 0), (2, 1), (3, 3)] [] [2]
        [⟨2, [(0, 0), (0, 1)]⟩, ⟨2, [(2, 0), (2, 1)]⟩]) 0 2 := by decide

/-- C9 amended: with at least one active hit, the entropy blend of the
OPTIMIZED strategy is applied exactly when fewer than two aligned groups of
ALL hits (sunk-ship hits included) exist; when applied, every positive
in-bounds cell becomes `0.7·v + 0.3·(normalized entropy)`. -/
theorem optimized_entropy_decision (h w : Nat) (hits misses : List Coordinate)
    (ships : List Nat) (sunk : List SunkShip) (m : ProbabilityMap)
    (hact : (getActiveHits hits sunk).isEmpty = false) :
    (2 ≤ (findAlignedHits hits).length →
      applyOptimizedStrategy h w hits misses ships sunk m =
        optimizedPreEntropy h w hits misses sunk m) ∧
    ((findAlignedHits hits).length < 2 → ∀ r c : Int,
      isValidCell r c h w = true →
      0 < optimizedPreEntropy h w hits misses sunk m r c →
      applyOptimizedStrategy h w hits misses ships sunk m r c =
        (1 - ENTROPY_WEIGHT) * optimizedPreEntropy h w hits misses sunk m r c +
          ENTROPY_WEIGHT * normalizedEntropy h w misses ships
            (optimizedPreEntropy h w hits misses sunk m) r c) := by
  constructor
  · intro h2
    unfold applyOptimizedStrategy
    rw [if_neg (by simp [hact])]
    unfold applyInformationEntropy
    rw [if_pos h2]
  · intro h2 r c hvalid hpos
    unfold applyOptimizedStrategy
    rw [if_neg (by simp [hact])]
    unfold applyInformationEntropy
    rw [if_neg (not_le.mpr h2)]
    unfold entropyBlendStage
    rw [if_pos (by simp [hvalid, hpos])]

/-- Witness for the amended C9: with two aligned groups among the (all active)
hits the strategy output is exactly the pre-entropy pipeline. -/
theorem optimized_entropy_decision_witness :
    applyOptimizedStrategy 4 4 [(0, 0), (0, 1), (2, 0), (2, 1)] [] [2] []
      (baseProbabilityMap 4 4 [(0, 0), (0, 1), (2, 0), (2, 1)] [] [2] []) =
    optimizedPreEntropy 4 4 [(0, 0), (0, 1), (2, 0), (2, 1)] [] []
      (baseProbabilityMap 4 4 [(0, 0), (0, 1), (2, 0), (2, 1)] [] [2] []) :=
  (optimized_entropy_decision 4 4 [(0, 0), (0, 1), (2, 0), (2, 1)] [] [2] []
    (baseProbabilityMap 4 4 [(0, 0), (0, 1), (2, 0), (2, 1)] [] [2] [])
    (by decide)).1 (by decide)

end Battleship
